import Mathlib

/-!
Verification of `scripts/build.py`, a command-line wrapper that parses a few
flags and runs a configure command followed by a build command.

The script is embedded shallowly:
* `pyInt` models Python's `int(str)` conversion (optional surrounding
  whitespace, optional sign, decimal digits with single underscores allowed
  between digits).
* `classify` / `parseLoop` model the `argparse` configuration built in `main`
  (a mutually exclusive `--debug` / `--release` group defaulting to
  `Release`, the `--web` and `--info` store-true flags, `--jobs` / `-j` of
  type `int` with default `8`, and the automatic `--help` / `-h` action),
  including left-to-right option processing, unambiguous long-option
  abbreviation, `=`-attached and `-jN`-attached values, immediate exit on
  help, and the trailing "unrecognized arguments" usage error.
* `mainRun` models `main`: it produces the ordered trace of observable
  events (subprocess starts, awaited subprocess exits, the `--info` block)
  together with the process exit code, given an oracle `exitOf` assigning an
  exit code to each external command.
-/

namespace BuildPy

/-- The two build types the script can request (`args.build_type`). -/
inductive BuildType
  | Debug
  | Release
deriving DecidableEq

/-- String form of a build type, as interpolated into the cmake command. -/
def BuildType.str : BuildType → String
  | .Debug => "Debug"
  | .Release => "Release"

/-- The parsed command-line namespace produced by `parser.parse_args()`. -/
structure Args where
  build_type : BuildType
  web : Bool
  jobs : Int
  info : Bool
deriving DecidableEq

/-- Result of argument parsing: a namespace, an immediate exit 0 via the
help action, or a usage error (argparse exits with code 2). -/
inductive ParseResult
  | ok (args : Args)
  | helpExit
  | usageError
deriving DecidableEq

/-! ### Python `int()` on strings -/

/-- ASCII decimal digit test. -/
def isDigitChar (c : Char) : Bool := 48 ≤ c.toNat && c.toNat ≤ 57

/-- Numeric value of an ASCII digit. -/
def digitVal (c : Char) : Nat := c.toNat - 48

/-- Whitespace stripped by Python's `int()` conversion. -/
def isPyWS (c : Char) : Bool :=
  c.toNat = 32 || c.toNat = 9 || c.toNat = 10 || c.toNat = 13 ||
  c.toNat = 11 || c.toNat = 12

/-- Strip leading and trailing whitespace. -/
def stripWS (l : List Char) : List Char :=
  ((l.dropWhile isPyWS).reverse.dropWhile isPyWS).reverse

/-- Digit-sequence parser for Python integer literals: decimal digits with
single underscores allowed only between digits.  The flag records whether
the previous character was a digit. -/
def pyDigitsCore : List Char → Bool → Nat → Option Nat
  | [], lastWasDigit, acc => if lastWasDigit then some acc else none
  | c :: cs, lastWasDigit, acc =>
    if isDigitChar c then pyDigitsCore cs true (acc * 10 + digitVal c)
    else if c = '_' && lastWasDigit then pyDigitsCore cs false acc
    else none

/-- Parse an unsigned decimal digit sequence (Python rules). -/
def pyNat (l : List Char) : Option Nat := pyDigitsCore l false 0

/-- Python's `int(s)` on a character list: strip whitespace, optional single
sign, then digits. -/
def pyIntL (l : List Char) : Option Int :=
  match stripWS l with
  | [] => none
  | c :: rest =>
    if c = '-' then (pyNat rest).map (fun n => -(n : Int))
    else if c = '+' then (pyNat rest).map (fun n => (n : Int))
    else (pyNat (c :: rest)).map (fun n => (n : Int))

/-- Python's `int(s)` on a string. -/
def pyInt (s : String) : Option Int := pyIntL s.data

/-! ### Rendering Python `str(int)`, used by the f-string `f"-j{args.jobs}"` -/

/-- Digit character for a value below ten. -/
def digitChar : Nat → Char
  | 0 => '0'
  | 1 => '1'
  | 2 => '2'
  | 3 => '3'
  | 4 => '4'
  | 5 => '5'
  | 6 => '6'
  | 7 => '7'
  | 8 => '8'
  | _ => '9'

/-- Decimal digits of a natural number, most significant first, with fuel. -/
def natStrAux : Nat → Nat → List Char
  | 0, _ => []
  | fuel + 1, n =>
    if n < 10 then [digitChar n]
    else natStrAux fuel (n / 10) ++ [digitChar (n % 10)]

/-- Decimal digits of a natural number. -/
def natStrL (n : Nat) : List Char := natStrAux (n + 1) n

/-- Python's `str` on an integer: decimal, with a leading minus sign for
negative values. -/
def pyStr : Int → String
  | .ofNat n => String.mk (natStrL n)
  | .negSucc m => String.mk ('-' :: natStrL (m + 1))

/-! ### Token classification (argparse `_parse_optional`) -/

/-- The six option actions registered on the parser (long names), paired
with the automatic short aliases `-h` and `-j` handled in `classify`. -/
inductive OptName
  | help
  | debug
  | release
  | web
  | jobs
  | info
deriving DecidableEq

/-- Long option strings of the parser, in registration order. -/
def longOptionNames : List (String × OptName) :=
  [("--help", OptName.help), ("--debug", OptName.debug),
   ("--release", OptName.release), ("--web", OptName.web),
   ("--jobs", OptName.jobs), ("--info", OptName.info)]

/-- How a single token is interpreted by the option scanner.  `ambiguous`
covers every token rejected at resolution time (ambiguous abbreviations and
ignored explicit arguments); `helpJobsPending` is a single-dash cluster
whose `-h` part fires once the trailing `-j` finds its value in the next
token (for example `-hj`). -/
inductive Tok
  | sep
  | ambiguous
  | extra
  | helpJobsPending
  | flag (o : OptName) (attached : Option (List Char))
deriving DecidableEq

/-- Split a token at its first `=` (argparse `split('=', 1)`). -/
def splitAtEq : List Char → List Char × Option (List Char)
  | [] => ([], none)
  | '=' :: rest => ([], some rest)
  | c :: rest =>
    let p := splitAtEq rest
    (c :: p.1, p.2)

/-- Negative-number test used by argparse to decide that a `-…` token is a
value rather than an option (the parser has no digit-named options). -/
def isNegNum : List Char → Bool
  | '-' :: c :: cs => (c :: cs).all isDigitChar
  | _ => false

/-- Whether argparse classifies a token as option-like (`O`), so that it can
never be consumed as the value of `--jobs`: it starts with `-`, has at least
two characters, and is not a plain negative number. -/
def isOptionLike (s : String) : Bool :=
  match s.data with
  | c :: _ :: _ => c == '-' && !(isNegNum s.data)
  | _ => false

/-- Resolve the explicit tail of a single-dash cluster headed by `-h`: each
`h` fires the help action again, a trailing `j` leaves `-j` waiting for a
value in the next token (help still fires once that value is found), a `j`
with characters after it takes them as its attached value (help fires
before their conversion), and any other character is an
"ignored explicit argument" usage error. -/
def helpCluster : List Char → Tok
  | [] => Tok.flag OptName.help none
  | 'h' :: rest => helpCluster rest
  | ['j'] => Tok.helpJobsPending
  | 'j' :: _ :: _ => Tok.flag OptName.help none
  | _ => Tok.ambiguous

/-- Classify one token the way argparse resolves it against this parser:
exact matches, unambiguous long-option abbreviation, `=`-attached values,
`-jN` attached values, `-h`-led single-dash clusters, the `--` separator,
and everything else as a positional destined for the
"unrecognized arguments" error. -/
def classify (t : String) : Tok :=
  if t = "--" then Tok.sep
  else if t = "-h" then Tok.flag OptName.help none
  else if t = "-j" then Tok.flag OptName.jobs none
  else
    match t.data with
    | '-' :: '-' :: _ =>
      let p := splitAtEq t.data
      match longOptionNames.filter (fun q => p.1.isPrefixOf q.1.data) with
      | [q] => Tok.flag q.2 p.2
      | [] => Tok.extra
      | _ => Tok.ambiguous
    | '-' :: 'j' :: _ :: _ =>
      match splitAtEq t.data with
      | (['-', 'j'], some v) => Tok.flag OptName.jobs (some v)
      | _ => Tok.flag OptName.jobs (some (t.data.drop 2))
    | '-' :: 'h' :: c :: rest =>
      if c = '=' then
        match rest with
        | [] => Tok.ambiguous
        | _ => helpCluster rest
      else helpCluster (c :: rest)
    | _ => Tok.extra

/-! ### The parse loop (argparse `parse_args` on this parser) -/

/-- Parser state while scanning tokens left to right.  `seenDebug` and
`seenRelease` track the mutually exclusive group; `extras` records that an
unrecognized argument was seen (reported as a usage error at the end);
`pendingJobs` means the previous token was a bare `--jobs` / `-j` awaiting
its value. -/
structure PState where
  bt : BuildType
  seenDebug : Bool
  seenRelease : Bool
  web : Bool
  jobs : Int
  info : Bool
  extras : Bool
  pendingJobs : Bool
deriving DecidableEq

/-- Initial parser state: `build_type` defaults to Release, `jobs` to 8. -/
def initState : PState :=
  ⟨BuildType.Release, false, false, false, 8, false, false, false⟩

/-- End of the token stream: report unrecognized arguments, otherwise
produce the parsed namespace. -/
def finish (st : PState) : ParseResult :=
  if st.extras then ParseResult.usageError
  else ParseResult.ok ⟨st.bt, st.web, st.jobs, st.info⟩

/-- Process the tokens left to right, exactly mirroring how argparse takes
the registered actions: help exits immediately, the second member of the
mutually exclusive pair raises a usage error, `--jobs` converts its value
with `int` and errors on failure or on an option-like follower, and
unrecognized tokens accumulate into the final usage error. -/
def parseLoop : PState → List String → ParseResult
  | st, [] => if st.pendingJobs then ParseResult.usageError else finish st
  | st, t :: rest =>
    if st.pendingJobs then
      if isOptionLike t then ParseResult.usageError
      else
        match pyInt t with
        | some n => parseLoop { st with jobs := n, pendingJobs := false } rest
        | none => ParseResult.usageError
    else
      match classify t with
      | Tok.sep => ParseResult.usageError
      | Tok.ambiguous => ParseResult.usageError
      | Tok.extra => parseLoop { st with extras := true } rest
      | Tok.flag OptName.help none => ParseResult.helpExit
      | Tok.helpJobsPending =>
        match rest with
        | [] => ParseResult.usageError
        | w :: _ =>
          if isOptionLike w then ParseResult.usageError
          else ParseResult.helpExit
      | Tok.flag OptName.debug none =>
        if st.seenRelease then ParseResult.usageError
        else parseLoop { st with bt := BuildType.Debug, seenDebug := true } rest
      | Tok.flag OptName.release none =>
        if st.seenDebug then ParseResult.usageError
        else parseLoop { st with bt := BuildType.Release, seenRelease := true } rest
      | Tok.flag OptName.web none => parseLoop { st with web := true } rest
      | Tok.flag OptName.info none => parseLoop { st with info := true } rest
      | Tok.flag OptName.jobs none => parseLoop { st with pendingJobs := true } rest
      | Tok.flag OptName.jobs (some v) =>
        match pyIntL v with
        | some n => parseLoop { st with jobs := n } rest
        | none => ParseResult.usageError
      | Tok.flag _ (some _) => ParseResult.usageError

/-- `parser.parse_args(tokens)`. -/
def parseArgs (tokens : List String) : ParseResult := parseLoop initState tokens

/-! ### Command composition and the main run -/

/-- The build directory derived in `main` from `args.web` and
`args.build_type`. -/
def build_dir (web : Bool) (bt : BuildType) : String :=
  if web then
    if bt = BuildType.Debug then "build-web-debug" else "build-web-release"
  else
    if bt = BuildType.Debug then "build-debug" else "build-release"

/-- The configure command (`cmake_command` in the script). -/
def cmake_command (web : Bool) (bt : BuildType) : List String :=
  if web then
    ["emcmake", "cmake", "-DCMAKE_BUILD_TYPE=" ++ bt.str, "-B", build_dir web bt]
  else
    ["cmake", "-DCMAKE_BUILD_TYPE=" ++ bt.str, "-S", ".", "-B", build_dir web bt]

/-- The build command (`build_command` in the script). -/
def build_command (web : Bool) (bt : BuildType) (jobs : Int) : List String :=
  ["cmake", "--build", build_dir web bt, "-j" ++ pyStr jobs]

/-- Observable events of one run: a subprocess being started, a subprocess
having been awaited with its exit code observed, and the static `--info`
reference block being printed. -/
inductive Event
  | started (cmd : List String)
  | exited (cmd : List String) (code : Nat)
  | printedInfoBlock
deriving DecidableEq

/-- The commands actually handed to `subprocess.run`, in order. -/
def invocations (tr : List Event) : List (List String) :=
  tr.filterMap (fun e =>
    match e with
    | Event.started c => some c
    | _ => none)

/-- `main`, shallowly embedded: the ordered event trace and the process exit
code, given an oracle `exitOf` for the exit code of each external command.
`run_command` runs a command to completion and aborts the whole process with
the child's exit code when it is non-zero; the build command is only reached
when the configure command returned 0. -/
def mainRun (tokens : List String) (exitOf : List String → Nat) :
    List Event × Nat :=
  match parseArgs tokens with
  | ParseResult.helpExit => ([], 0)
  | ParseResult.usageError => ([], 2)
  | ParseResult.ok args =>
    if args.info then ([Event.printedInfoBlock], 0)
    else
      let cc := cmake_command args.web args.build_type
      let bc := build_command args.web args.build_type args.jobs
      let c1 := exitOf cc
      if c1 ≠ 0 then ([Event.started cc, Event.exited cc c1], c1)
      else
        let c2 := exitOf bc
        ([Event.started cc, Event.exited cc 0, Event.started bc,
          Event.exited bc c2], c2)

/-- Token through which the help action can fire: one resolving directly to
help (`--help`, `-h`, an unambiguous abbreviation, or a cluster such as
`-hh` or `-hj4`), or a cluster such as `-hj` whose help action fires once
the trailing `-j` finds a value. -/
def isHelpTok (t : String) : Bool :=
  match classify t with
  | Tok.flag OptName.help none => true
  | Tok.helpJobsPending => true
  | _ => false

/-- Token that argparse resolves to the `--jobs` action (exact, abbreviated,
or with an attached value). -/
def isJobsTok (t : String) : Bool :=
  match classify t with
  | Tok.flag OptName.jobs _ => true
  | _ => false

/-! ### Specification-side definitions

These follow the words of the specification (its build-directory table and
command-composition rules), to be compared with the definitions translated
from the script. -/

/-- Build-directory derivation exactly as tabulated in the specification. -/
def spec_build_dir : Bool → BuildType → String
  | false, BuildType.Release => "build-release"
  | false, BuildType.Debug => "build-debug"
  | true, BuildType.Release => "build-web-release"
  | true, BuildType.Debug => "build-web-debug"

/-- Configure command as described by the specification: native runs
`cmake -DCMAKE_BUILD_TYPE=<type> -S . -B <build_dir>`, web runs
`emcmake cmake -DCMAKE_BUILD_TYPE=<type> -B <build_dir>` with no `-S`. -/
def spec_configure (web : Bool) (bt : BuildType) : List String :=
  if web then
    ["emcmake", "cmake", "-DCMAKE_BUILD_TYPE=" ++ bt.str, "-B",
     spec_build_dir web bt]
  else
    ["cmake", "-DCMAKE_BUILD_TYPE=" ++ bt.str, "-S", ".", "-B",
     spec_build_dir web bt]

/-- Build command as described by the specification:
`cmake --build <build_dir> -j<jobs>`. -/
def spec_build (web : Bool) (bt : BuildType) (jobs : Int) : List String :=
  ["cmake", "--build", spec_build_dir web bt, "-j" ++ pyStr jobs]

/-! ### Classification facts for the concrete flag tokens -/

theorem classify_ddebug : classify "--debug" = Tok.flag OptName.debug none := by
  decide

theorem classify_rrelease :
    classify "--release" = Tok.flag OptName.release none := by decide

theorem classify_jjobs : classify "--jobs" = Tok.flag OptName.jobs none := by
  decide

theorem classify_iinfo : classify "--info" = Tok.flag OptName.info none := by
  decide

theorem optionLike_ddebug : isOptionLike "--debug" = true := by decide

theorem optionLike_rrelease : isOptionLike "--release" = true := by decide

theorem optionLike_jjobs : isOptionLike "--jobs" = true := by decide

theorem optionLike_iinfo : isOptionLike "--info" = true := by decide

/-- The build command is never the same command line as the configure
command (their lengths differ). -/
theorem build_ne_cmake (web : Bool) (bt : BuildType) (jobs : Int) :
    build_command web bt jobs ≠ cmake_command web bt := by
  intro h
  have hlen := congrArg List.length h
  cases web <;> simp [build_command, cmake_command] at hlen

/-! ### Behavioral lemmas about the parse loop -/

/-- Once the `--info` flag has been recorded, every successful parse keeps
it set. -/
theorem parseLoop_info_mono (toks : List String) :
    ∀ (st : PState) (a : Args),
      parseLoop st toks = ParseResult.ok a → st.info = true → a.info = true := by
  induction toks with
  | nil =>
    intro st a h hinfo
    simp only [parseLoop, finish] at h
    split at h
    · exact ParseResult.noConfusion h
    · split at h
      · exact ParseResult.noConfusion h
      · injection h with h2
        rw [← h2]
        exact hinfo
  | cons t rest ih =>
    intro st a h hinfo
    simp only [parseLoop] at h
    split at h
    · split at h
      · exact ParseResult.noConfusion h
      · split at h
        · exact ih _ _ h hinfo
        · exact ParseResult.noConfusion h
    · split at h <;>
        first
          | exact ParseResult.noConfusion h
          | exact ih _ _ h hinfo
          | exact ih _ _ h rfl
          | (split at h <;>
              first
                | exact ParseResult.noConfusion h
                | exact ih _ _ h hinfo
                | (split at h <;> exact ParseResult.noConfusion h))

/-- A successful parse of a command line containing the literal token
`--info` has `info` set in the resulting namespace. -/
theorem parseLoop_info_of_mem (toks : List String) :
    ∀ (st : PState) (a : Args),
      parseLoop st toks = ParseResult.ok a → "--info" ∈ toks → a.info = true := by
  induction toks with
  | nil =>
    intro st a h hm
    exact absurd hm (List.not_mem_nil _)
  | cons t rest ih =>
    intro st a h hm
    by_cases ht : t = "--info"
    · subst ht
      simp only [parseLoop, optionLike_iinfo, classify_iinfo] at h
      split at h
      · exact ParseResult.noConfusion h
      · exact parseLoop_info_mono rest _ a h rfl
    · have hmem : "--info" ∈ rest := by
        rcases List.mem_cons.mp hm with h1 | h2
        · exact absurd h1.symm ht
        · exact h2
      simp only [parseLoop] at h
      split at h
      · split at h
        · exact ParseResult.noConfusion h
        · split at h
          · exact ih _ _ h hmem
          · exact ParseResult.noConfusion h
      · split at h <;>
          first
            | exact ParseResult.noConfusion h
            | exact ih _ _ h hmem
            | (split at h <;>
                first
                  | exact ParseResult.noConfusion h
                  | exact ih _ _ h hmem
                  | (split at h <;> exact ParseResult.noConfusion h))

/-- If no token of the command line resolves to the `--jobs` action and no
value is pending, a successful parse leaves `jobs` at its incoming value
(in particular at the default 8 from the initial state). -/
theorem parseLoop_jobs_default (toks : List String) :
    ∀ (st : PState) (a : Args),
      parseLoop st toks = ParseResult.ok a →
      (∀ t ∈ toks, isJobsTok t = false) →
      st.pendingJobs = false → a.jobs = st.jobs := by
  induction toks with
  | nil =>
    intro st a h _ hp
    simp only [parseLoop, finish, hp] at h
    split at h
    · exact ParseResult.noConfusion h
    · split at h
      · exact ParseResult.noConfusion h
      · injection h with h2
        rw [← h2]
  | cons t rest ih =>
    intro st a h hjobs hp
    have hjt : isJobsTok t = false := hjobs t (List.mem_cons_self t rest)
    have hjrest : ∀ u ∈ rest, isJobsTok u = false := fun u hu =>
      hjobs u (List.mem_cons_of_mem t hu)
    simp only [parseLoop] at h
    rw [hp] at h
    simp only [Bool.false_eq_true, if_false] at h
    split at h <;>
      first
        | exact ParseResult.noConfusion h
        | (have hres := ih _ _ h hjrest rfl
           exact hres)
        | (split at h <;>
            first
              | exact ParseResult.noConfusion h
              | (have hres := ih _ _ h hjrest rfl
                 exact hres)
              | (split at h <;> exact ParseResult.noConfusion h)
              | simp_all [isJobsTok])
        | simp_all [isJobsTok]

/-- A member of a list with a head it differs from is a member of the
tail. -/
theorem mem_tail_of_ne {a x : String} {l : List String} (h : a ∈ x :: l)
    (hne : a ≠ x) : a ∈ l := by
  rcases List.mem_cons.mp h with h1 | h1
  · exact absurd h1 hne
  · exact h1

/-- A token that argparse classifies differently from `--debug` is not the
token `--debug`. -/
theorem ne_ddebug_of_classify {t : String} {tok : Tok} (hceq : classify t = tok)
    (hne : tok ≠ Tok.flag OptName.debug none) : "--debug" ≠ t := by
  intro he
  rw [← he, classify_ddebug] at hceq
  exact hne hceq.symm

/-- A token that argparse classifies differently from `--release` is not the
token `--release`. -/
theorem ne_rrelease_of_classify {t : String} {tok : Tok}
    (hceq : classify t = tok) (hne : tok ≠ Tok.flag OptName.release none) :
    "--release" ≠ t := by
  intro he
  rw [← he, classify_rrelease] at hceq
  exact hne hceq.symm

/-- If the command line still to be scanned contains both `--debug` and
`--release` (or the corresponding action was already seen), and no token
resolves to help, the parse ends in a usage error: the second member of the
mutually exclusive pair always conflicts. -/
theorem parseLoop_conflict (toks : List String) :
    ∀ (st : PState),
      (∀ t ∈ toks, isHelpTok t = false) →
      (st.seenDebug = true ∨ "--debug" ∈ toks) →
      (st.seenRelease = true ∨ "--release" ∈ toks) →
      ¬(st.seenDebug = true ∧ st.seenRelease = true) →
      parseLoop st toks = ParseResult.usageError := by
  induction toks with
  | nil =>
    intro st _ hd hr hnb
    rcases hd with hd | hd
    · rcases hr with hr | hr
      · exact absurd ⟨hd, hr⟩ hnb
      · exact absurd hr (List.not_mem_nil _)
    · exact absurd hd (List.not_mem_nil _)
  | cons t rest ih =>
    intro st hh hd hr hnb
    have hht : isHelpTok t = false := hh t (List.mem_cons_self t rest)
    have hhrest : ∀ u ∈ rest, isHelpTok u = false := fun u hu =>
      hh u (List.mem_cons_of_mem t hu)
    simp only [parseLoop]
    split
    · -- a value for --jobs is pending
      split
      · rfl
      · rename_i hopt
        have hnd : "--debug" ≠ t := by
          intro he
          rw [← he] at hopt
          exact hopt optionLike_ddebug
        have hnr : "--release" ≠ t := by
          intro he
          rw [← he] at hopt
          exact hopt optionLike_rrelease
        have hd2 : st.seenDebug = true ∨ "--debug" ∈ rest := by
          rcases hd with h1 | h1
          · exact Or.inl h1
          · exact Or.inr (mem_tail_of_ne h1 hnd)
        have hr2 : st.seenRelease = true ∨ "--release" ∈ rest := by
          rcases hr with h1 | h1
          · exact Or.inl h1
          · exact Or.inr (mem_tail_of_ne h1 hnr)
        split
        · exact ih _ hhrest hd2 hr2 hnb
        · rfl
    · -- dispatch on the classification of the current token
      split
      · rfl
      · rfl
      · -- unrecognized token, recorded as an extra
        rename_i hceq
        have hnd := ne_ddebug_of_classify hceq (by decide)
        have hnr := ne_rrelease_of_classify hceq (by decide)
        refine ih _ hhrest ?_ ?_ hnb
        · rcases hd with h1 | h1
          · exact Or.inl h1
          · exact Or.inr (mem_tail_of_ne h1 hnd)
        · rcases hr with h1 | h1
          · exact Or.inl h1
          · exact Or.inr (mem_tail_of_ne h1 hnr)
      · -- help action: excluded by hypothesis
        rename_i hceq
        rw [isHelpTok, hceq] at hht
        exact Bool.noConfusion hht
      · -- help cluster awaiting a jobs value: also excluded by hypothesis
        rename_i hceq
        rw [isHelpTok, hceq] at hht
        exact Bool.noConfusion hht
      · -- the debug action is taken
        rename_i hceq
        split
        · rfl
        · rename_i hsr
          have hnr := ne_rrelease_of_classify hceq (by decide)
          refine ih _ hhrest (Or.inl rfl) ?_ ?_
          · rcases hr with h1 | h1
            · exact absurd h1 hsr
            · exact Or.inr (mem_tail_of_ne h1 hnr)
          · intro hx
            exact hsr hx.2
      · -- the release action is taken
        rename_i hceq
        split
        · rfl
        · rename_i hsd
          have hnd := ne_ddebug_of_classify hceq (by decide)
          refine ih _ hhrest ?_ (Or.inl rfl) ?_
          · rcases hd with h1 | h1
            · exact absurd h1 hsd
            · exact Or.inr (mem_tail_of_ne h1 hnd)
          · intro hx
            exact hsd hx.1
      · -- the web action is taken
        rename_i hceq
        have hnd := ne_ddebug_of_classify hceq (by decide)
        have hnr := ne_rrelease_of_classify hceq (by decide)
        refine ih _ hhrest ?_ ?_ hnb
        · rcases hd with h1 | h1
          · exact Or.inl h1
          · exact Or.inr (mem_tail_of_ne h1 hnd)
        · rcases hr with h1 | h1
          · exact Or.inl h1
          · exact Or.inr (mem_tail_of_ne h1 hnr)
      · -- the info action is taken
        rename_i hceq
        have hnd := ne_ddebug_of_classify hceq (by decide)
        have hnr := ne_rrelease_of_classify hceq (by decide)
        refine ih _ hhrest ?_ ?_ hnb
        · rcases hd with h1 | h1
          · exact Or.inl h1
          · exact Or.inr (mem_tail_of_ne h1 hnd)
        · rcases hr with h1 | h1
          · exact Or.inl h1
          · exact Or.inr (mem_tail_of_ne h1 hnr)
      · -- a bare --jobs, its value now pending
        rename_i hceq
        have hnd := ne_ddebug_of_classify hceq (by decide)
        have hnr := ne_rrelease_of_classify hceq (by decide)
        refine ih _ hhrest ?_ ?_ hnb
        · rcases hd with h1 | h1
          · exact Or.inl h1
          · exact Or.inr (mem_tail_of_ne h1 hnd)
        · rcases hr with h1 | h1
          · exact Or.inl h1
          · exact Or.inr (mem_tail_of_ne h1 hnr)
      · -- --jobs with an attached value
        rename_i v hceq
        have hnd := ne_ddebug_of_classify hceq (by simp)
        have hnr := ne_rrelease_of_classify hceq (by simp)
        split
        · refine ih _ hhrest ?_ ?_ hnb
          · rcases hd with h1 | h1
            · exact Or.inl h1
            · exact Or.inr (mem_tail_of_ne h1 hnd)
          · rcases hr with h1 | h1
            · exact Or.inl h1
            · exact Or.inr (mem_tail_of_ne h1 hnr)
        · rfl
      · -- any other action with an attached value
        rfl

/-- A command line that gives `--jobs` a value `int` cannot convert ends in
a usage error, provided no earlier token resolves to help.  Every possible
way the scanner can reach the inserted `--jobs` token either errors
immediately or makes the following token its value, whose conversion
fails. -/
theorem parseLoop_jobs_bad (mid : List String) :
    ∀ (st : PState) (v : String) (post : List String),
      pyInt v = none →
      (∀ t ∈ mid, isHelpTok t = false) →
      parseLoop st (mid ++ "--jobs" :: v :: post) = ParseResult.usageError := by
  induction mid with
  | nil =>
    intro st v post hv _
    simp only [List.nil_append]
    by_cases hp : st.pendingJobs = true
    · simp [parseLoop, hp, optionLike_jjobs]
    · by_cases ho : isOptionLike v = true
      · simp [parseLoop, hp, classify_jjobs, ho]
      · simp [parseLoop, hp, classify_jjobs, ho, hv]
  | cons t mid2 ih =>
    intro st v post hv hh
    have hht : isHelpTok t = false := hh t (List.mem_cons_self t mid2)
    have hhrest : ∀ u ∈ mid2, isHelpTok u = false := fun u hu =>
      hh u (List.mem_cons_of_mem t hu)
    simp only [List.cons_append, parseLoop]
    split
    · -- a pending value: consume t or fail
      split
      · rfl
      · split
        · exact ih _ v post hv hhrest
        · rfl
    · split <;>
        first
          | rfl
          | exact ih _ v post hv hhrest
          | (rename_i hceq
             rw [isHelpTok, hceq] at hht
             exact Bool.noConfusion hht)
          | (split <;>
              first
                | rfl
                | exact ih _ v post hv hhrest)

/-! ### Round trip between `pyStr` and `pyInt` -/

/-- Accumulator step of decimal parsing. -/
def foldStep (a : Nat) (c : Char) : Nat := a * 10 + digitVal c

theorem digitVal_digitChar {n : Nat} (h : n < 10) :
    digitVal (digitChar n) = n := by
  interval_cases n <;> rfl

theorem isDigitChar_digitChar {n : Nat} (h : n < 10) :
    isDigitChar (digitChar n) = true := by
  interval_cases n <;> rfl

theorem natStrAux_digits : ∀ (fuel n : Nat), n < fuel →
    ∀ c ∈ natStrAux fuel n, isDigitChar c = true := by
  intro fuel
  induction fuel with
  | zero =>
    intro n h
    exact absurd h (Nat.not_lt_zero n)
  | succ f ih =>
    intro n h c hc
    simp only [natStrAux] at hc
    by_cases h10 : n < 10
    · simp [h10] at hc
      rw [hc]
      exact isDigitChar_digitChar h10
    · simp [h10] at hc
      rcases hc with hc | hc
      · have hlt : n / 10 < n := Nat.div_lt_self (by omega) (by omega)
        exact ih (n / 10) (by omega) c hc
      · rw [hc]
        exact isDigitChar_digitChar (Nat.mod_lt n (by omega))

theorem natStrAux_ne_nil (fuel n : Nat) (h : n < fuel) :
    natStrAux fuel n ≠ [] := by
  cases fuel with
  | zero => exact absurd h (Nat.not_lt_zero n)
  | succ f =>
    simp only [natStrAux]
    by_cases h10 : n < 10 <;> simp [h10]

theorem foldl_natStrAux : ∀ (fuel n a : Nat), n < fuel →
    List.foldl foldStep a (natStrAux fuel n) =
      a * 10 ^ (natStrAux fuel n).length + n := by
  intro fuel
  induction fuel with
  | zero =>
    intro n a h
    exact absurd h (Nat.not_lt_zero n)
  | succ f ih =>
    intro n a h
    by_cases h10 : n < 10
    · simp [natStrAux, h10, foldStep, digitVal_digitChar h10]
    · have hlt : n / 10 < n := Nat.div_lt_self (by omega) (by omega)
      simp only [natStrAux, if_neg h10, List.foldl_append, List.length_append]
      rw [ih (n / 10) a (by omega)]
      simp only [List.foldl_cons, List.foldl_nil, List.length_cons,
        List.length_nil, foldStep, digitVal_digitChar (Nat.mod_lt n (by omega))]
      rw [pow_succ, ← Nat.mul_assoc]
      omega

theorem pyDigitsCore_all_digits : ∀ (l : List Char) (a : Nat),
    (∀ c ∈ l, isDigitChar c = true) →
    pyDigitsCore l true a = some (List.foldl foldStep a l) := by
  intro l
  induction l with
  | nil => intro a _; rfl
  | cons c cs ih =>
    intro a hd
    have hc : isDigitChar c = true := hd c (List.mem_cons_self _ _)
    simp only [pyDigitsCore, hc, if_true, List.foldl_cons]
    simpa [foldStep] using
      ih (a * 10 + digitVal c) (fun u hu => hd u (List.mem_cons_of_mem _ hu))

theorem pyNat_digits (l : List Char) (hne : l ≠ [])
    (hd : ∀ c ∈ l, isDigitChar c = true) :
    pyNat l = some (List.foldl foldStep 0 l) := by
  cases l with
  | nil => exact absurd rfl hne
  | cons c cs =>
    have hc : isDigitChar c = true := hd c (List.mem_cons_self _ _)
    simp only [pyNat, pyDigitsCore, hc, if_true, List.foldl_cons]
    simpa [foldStep] using
      pyDigitsCore_all_digits cs (0 * 10 + digitVal c)
        (fun u hu => hd u (List.mem_cons_of_mem _ hu))

theorem pyNat_natStrL (n : Nat) : pyNat (natStrL n) = some n := by
  have hlt : n < n + 1 := Nat.lt_succ_self n
  simp only [natStrL]
  rw [pyNat_digits _ (natStrAux_ne_nil (n + 1) n hlt)
        (natStrAux_digits (n + 1) n hlt),
      foldl_natStrAux (n + 1) n 0 hlt]
  simp

theorem not_pyWS_of_digit {c : Char} (h : isDigitChar c = true) :
    isPyWS c = false := by
  simp only [isDigitChar, Bool.and_eq_true, decide_eq_true_eq] at h
  simp only [isPyWS]
  simp only [Bool.or_eq_false_iff, decide_eq_false_iff_not]
  omega

theorem digit_ne_minus {c : Char} (h : isDigitChar c = true) : c ≠ '-' := by
  intro he
  subst he
  exact absurd h (by decide)

theorem digit_ne_plus {c : Char} (h : isDigitChar c = true) : c ≠ '+' := by
  intro he
  subst he
  exact absurd h (by decide)

theorem dropWhile_eq_self_of_not_ws (l : List Char)
    (h : ∀ c ∈ l, isPyWS c = false) : l.dropWhile isPyWS = l := by
  cases l with
  | nil => rfl
  | cons c cs => simp [List.dropWhile_cons, h c (List.mem_cons_self _ _)]

theorem stripWS_eq_self (l : List Char) (h : ∀ c ∈ l, isPyWS c = false) :
    stripWS l = l := by
  unfold stripWS
  rw [dropWhile_eq_self_of_not_ws l h,
      dropWhile_eq_self_of_not_ws l.reverse
        (fun c hc => h c (List.mem_reverse.mp hc)),
      List.reverse_reverse]

theorem pyInt_pyStr (N : Int) : pyInt (pyStr N) = some N := by
  cases N with
  | ofNat n =>
    have hlt : n < n + 1 := Nat.lt_succ_self n
    have hdig : ∀ c ∈ natStrL n, isDigitChar c = true :=
      natStrAux_digits (n + 1) n hlt
    have hne : natStrL n ≠ [] := natStrAux_ne_nil (n + 1) n hlt
    obtain ⟨c, cs, hl⟩ := List.exists_cons_of_ne_nil hne
    have hlL : natStrL n = c :: cs := hl
    have hc : isDigitChar c = true :=
      hdig c (by rw [hlL]; exact List.mem_cons_self _ _)
    show pyIntL (natStrL n) = some (Int.ofNat n)
    have hstrip : stripWS (natStrL n) = c :: cs := by
      rw [stripWS_eq_self _ (fun u hu => not_pyWS_of_digit (hdig u hu)), hlL]
    simp only [pyIntL, hstrip]
    rw [if_neg (digit_ne_minus hc), if_neg (digit_ne_plus hc), ← hlL,
        pyNat_natStrL n]
    simp
  | negSucc m =>
    have hlt : m + 1 < m + 2 := Nat.lt_succ_self (m + 1)
    have hdig : ∀ c ∈ natStrL (m + 1), isDigitChar c = true :=
      natStrAux_digits (m + 2) (m + 1) hlt
    show pyIntL ('-' :: natStrL (m + 1)) = some (Int.negSucc m)
    have hnotws : ∀ u ∈ '-' :: natStrL (m + 1), isPyWS u = false := by
      intro u hu
      rcases List.mem_cons.mp hu with h1 | h1
      · rw [h1]; rfl
      · exact not_pyWS_of_digit (hdig u h1)
    simp only [pyIntL, stripWS_eq_self _ hnotws]
    rw [pyNat_natStrL (m + 1)]
    simp [Int.negSucc_eq]

theorem optionLike_pyStr (N : Int) : isOptionLike (pyStr N) = false := by
  cases N with
  | ofNat n =>
    have hlt : n < n + 1 := Nat.lt_succ_self n
    have hdig : ∀ c ∈ natStrL n, isDigitChar c = true :=
      natStrAux_digits (n + 1) n hlt
    obtain ⟨c, cs, hl⟩ :=
      List.exists_cons_of_ne_nil (natStrAux_ne_nil (n + 1) n hlt)
    have hlL : natStrL n = c :: cs := hl
    have hc : isDigitChar c = true :=
      hdig c (by rw [hlL]; exact List.mem_cons_self _ _)
    show isOptionLike (String.mk (natStrL n)) = false
    have hdata : (String.mk (natStrL n)).data = natStrL n := rfl
    simp only [isOptionLike, hdata, hlL]
    cases cs with
    | nil => rfl
    | cons d ds => simp [digit_ne_minus hc]
  | negSucc m =>
    have hlt : m + 1 < m + 2 := Nat.lt_succ_self (m + 1)
    have hdig : ∀ c ∈ natStrL (m + 1), isDigitChar c = true :=
      natStrAux_digits (m + 2) (m + 1) hlt
    obtain ⟨c, cs, hl⟩ :=
      List.exists_cons_of_ne_nil (natStrAux_ne_nil (m + 2) (m + 1) hlt)
    have hlL : natStrL (m + 1) = c :: cs := hl
    show isOptionLike (String.mk ('-' :: natStrL (m + 1))) = false
    have hdata : (String.mk ('-' :: natStrL (m + 1))).data =
        '-' :: natStrL (m + 1) := rfl
    have hall : (c :: cs).all isDigitChar = true := by
      rw [List.all_eq_true]
      intro u hu
      exact hdig u (by rw [hlL]; exact hu)
    simp only [isOptionLike, hdata, hlL]
    simp [isNegNum, hall]

/-- C1: for every combination of `is_web` and `build_type`, the derived
`build_dir` agrees with the specification's table, and is exactly
`build-release`, `build-debug`, `build-web-release`, `build-web-debug` for
the four combinations. -/
theorem c1_build_dir_table :
    (∀ (web : Bool) (bt : BuildType), build_dir web bt = spec_build_dir web bt) ∧
    build_dir false BuildType.Release = "build-release" ∧
    build_dir false BuildType.Debug = "build-debug" ∧
    build_dir true BuildType.Release = "build-web-release" ∧
    build_dir true BuildType.Debug = "build-web-debug" := by
  refine ⟨fun web bt => ?_, by decide, by decide, by decide, by decide⟩
  cases web <;> cases bt <;> rfl

/-- C2: for every `(is_web, build_type, jobs)` the composed configure and
build command lines agree with the specification's composition rules
(native configure has `-S .`, web configure uses `emcmake` and omits `-S`,
both builds are `cmake --build <dir> -j<jobs>`), and the flags
`--web --debug -j4` parse to the web Debug configuration with jobs 4, whose
commands are exactly the example's strings. -/
theorem c2_command_composition :
    (∀ (web : Bool) (bt : BuildType) (jobs : Int),
      cmake_command web bt = spec_configure web bt ∧
      build_command web bt jobs = spec_build web bt jobs) ∧
    parseArgs ["--web", "--debug", "-j4"] =
      ParseResult.ok ⟨BuildType.Debug, true, 4, false⟩ ∧
    cmake_command true BuildType.Debug =
      ["emcmake", "cmake", "-DCMAKE_BUILD_TYPE=Debug", "-B", "build-web-debug"] ∧
    build_command true BuildType.Debug 4 =
      ["cmake", "--build", "build-web-debug", "-j4"] := by
  refine ⟨fun web bt jobs => ?_, by decide, by decide, by decide⟩
  cases web <;> cases bt <;> exact ⟨rfl, rfl⟩

/-- C3 counterexample: the command line `--help --debug --release` contains
both `--debug` and `--release`, yet the help action fires first, so the
process exits 0 (not a usage error) with zero subprocess invocations. -/
theorem c3_conflict_counterexample :
    mainRun ["--help", "--debug", "--release"] (fun _ => 1) = ([], 0) := by
  decide

/-- C3 (amended): every command line containing both `--debug` and
`--release` and no token through which the help action can fire (`--help`,
`-h`, an unambiguous abbreviation, or an `-h`-led single-dash cluster such
as `-hj4`, `-hh` or `-hj`) ends in the parsing layer's usage error: exit
code 2 and zero subprocess invocations. -/
theorem c3_conflict_usage_error (tokens : List String)
    (exitOf : List String → Nat) (hd : "--debug" ∈ tokens)
    (hr : "--release" ∈ tokens) (hh : ∀ t ∈ tokens, isHelpTok t = false) :
    mainRun tokens exitOf = ([], 2) := by
  have hp := parseLoop_conflict tokens initState hh (Or.inr hd) (Or.inr hr)
    (by simp [initState])
  simp [mainRun, parseArgs, hp]

/-- C3 witness: the amended statement at the command line
`--debug --release`. -/
theorem c3_conflict_witness :
    mainRun ["--debug", "--release"] (fun _ => 0) = ([], 2) :=
  c3_conflict_usage_error ["--debug", "--release"] (fun _ => 0) (by decide)
    (by decide) (by decide)

/-- C4 counterexample: the command line `--debug --release --info` contains
`--info`, yet argument parsing raises the mutual-exclusion usage error
first: exit code 2, no reference block printed. -/
theorem c4_info_counterexample :
    mainRun ["--debug", "--release", "--info"] (fun _ => 1) = ([], 2) := by
  decide

/-- C4 (amended): every command line containing `--info` that argument
parsing accepts prints the static reference block, performs zero subprocess
invocations, and exits 0. -/
theorem c4_info_short_circuit (tokens : List String)
    (exitOf : List String → Nat) (a : Args)
    (h1 : parseArgs tokens = ParseResult.ok a) (hm : "--info" ∈ tokens) :
    mainRun tokens exitOf = ([Event.printedInfoBlock], 0) := by
  have hinfo : a.info = true := parseLoop_info_of_mem tokens initState a h1 hm
  simp [mainRun, h1, hinfo]

/-- C4 witness: the amended statement at the command line `--info`. -/
theorem c4_info_witness :
    mainRun ["--info"] (fun _ => 1) = ([Event.printedInfoBlock], 0) :=
  c4_info_short_circuit ["--info"] (fun _ => 1)
    ⟨BuildType.Release, false, 8, true⟩ (by decide) (by decide)

/-- C5: whenever the configure command exits with a non-zero code `c`, the
run consists of that single awaited invocation, the build command is never
invoked, and the tool's exit code is exactly `c`. -/
theorem c5_configure_failure (tokens : List String)
    (exitOf : List String → Nat) (a : Args) (c : Nat)
    (h1 : parseArgs tokens = ParseResult.ok a) (h2 : a.info = false)
    (hc : exitOf (cmake_command a.web a.build_type) = c) (hne : c ≠ 0) :
    (mainRun tokens exitOf).2 = c ∧
    invocations (mainRun tokens exitOf).1 =
      [cmake_command a.web a.build_type] ∧
    build_command a.web a.build_type a.jobs ∉
      invocations (mainRun tokens exitOf).1 := by
  have hmain : mainRun tokens exitOf =
      ([Event.started (cmake_command a.web a.build_type),
        Event.exited (cmake_command a.web a.build_type) c], c) := by
    simp [mainRun, h1, h2, hc, hne]
  refine ⟨by rw [hmain], by rw [hmain]; rfl, ?_⟩
  rw [hmain]
  intro hmem
  simp [invocations] at hmem
  exact build_ne_cmake a.web a.build_type a.jobs hmem

/-- C5 witness: an empty command line with every external command exiting 7
yields exit code 7 after only the configure invocation. -/
theorem c5_configure_failure_witness :
    (mainRun [] (fun _ => 7)).2 = 7 ∧
    invocations (mainRun [] (fun _ => 7)).1 =
      [cmake_command false BuildType.Release] ∧
    build_command false BuildType.Release 8 ∉
      invocations (mainRun [] (fun _ => 7)).1 :=
  c5_configure_failure [] (fun _ => 7) ⟨BuildType.Release, false, 8, false⟩ 7
    (by decide) rfl rfl (by decide)

/-- C6: whenever the configure command exits 0, the build command is invoked
exactly once, its final token is `-j` followed by the rendered jobs value,
and that value is the default 8 when no token resolved to `--jobs`/`-j`. -/
theorem c6_build_invocation (tokens : List String)
    (exitOf : List String → Nat) (a : Args)
    (h1 : parseArgs tokens = ParseResult.ok a) (h2 : a.info = false)
    (h0 : exitOf (cmake_command a.web a.build_type) = 0) :
    invocations (mainRun tokens exitOf).1 =
      [cmake_command a.web a.build_type,
       build_command a.web a.build_type a.jobs] ∧
    (invocations (mainRun tokens exitOf).1).count
      (build_command a.web a.build_type a.jobs) = 1 ∧
    (build_command a.web a.build_type a.jobs).getLast? =
      some ("-j" ++ pyStr a.jobs) ∧
    ((∀ t ∈ tokens, isJobsTok t = false) → a.jobs = 8) := by
  have hmain : mainRun tokens exitOf =
      ([Event.started (cmake_command a.web a.build_type),
        Event.exited (cmake_command a.web a.build_type) 0,
        Event.started (build_command a.web a.build_type a.jobs),
        Event.exited (build_command a.web a.build_type a.jobs)
          (exitOf (build_command a.web a.build_type a.jobs))],
       exitOf (build_command a.web a.build_type a.jobs)) := by
    simp [mainRun, h1, h2, h0]
  refine ⟨by rw [hmain]; rfl, ?_, rfl, ?_⟩
  · rw [hmain]
    have hne := build_ne_cmake a.web a.build_type a.jobs
    have hne2 : cmake_command a.web a.build_type ≠
        build_command a.web a.build_type a.jobs := fun hx => hne hx.symm
    simp [invocations, List.count_cons, hne2]
  · intro hnj
    have hj := parseLoop_jobs_default tokens initState a h1 hnj rfl
    simpa [initState] using hj

/-- C6 witness: an empty command line with every external command exiting 0
runs configure then build once, with the default `-j8`. -/
theorem c6_build_invocation_witness :
    invocations (mainRun [] (fun _ => 0)).1 =
      [cmake_command false BuildType.Release,
       build_command false BuildType.Release 8] ∧
    (invocations (mainRun [] (fun _ => 0)).1).count
      (build_command false BuildType.Release 8) = 1 ∧
    (build_command false BuildType.Release 8).getLast? =
      some ("-j" ++ pyStr 8) ∧
    ((∀ t ∈ ([] : List String), isJobsTok t = false) → (8 : Int) = 8) :=
  c6_build_invocation [] (fun _ => 0) ⟨BuildType.Release, false, 8, false⟩
    (by decide) rfl rfl

/-- C7 counterexample: `--jobs 0` is accepted by the parser with resolved
jobs value 0, which is not a positive integer. -/
theorem c7_jobs_counterexample :
    parseArgs ["--jobs", "0"] =
      ParseResult.ok ⟨BuildType.Release, false, 0, false⟩ ∧
    ¬(0 < (0 : Int)) := by
  decide

/-- C7 (amended): for every accepted command line the resolved jobs value is
an integer, equal to 8 whenever no token resolved to `--jobs`/`-j`; the
parser performs no positivity check on it. -/
theorem c7_jobs_default (tokens : List String) (a : Args)
    (h1 : parseArgs tokens = ParseResult.ok a)
    (hnj : ∀ t ∈ tokens, isJobsTok t = false) : a.jobs = 8 := by
  have hj := parseLoop_jobs_default tokens initState a h1 hnj rfl
  simpa [initState] using hj

/-- C7 witness: the amended statement at the empty command line. -/
theorem c7_jobs_default_witness :
    (⟨BuildType.Release, false, 8, false⟩ : Args).jobs = 8 :=
  c7_jobs_default [] ⟨BuildType.Release, false, 8, false⟩ (by decide)
    (by decide)

/-- C8: execution is strictly sequential: the run trace starts the configure
command and observes its exit code, and only if that code is 0 does the
trace then start the build command and observe its exit code; no other
interleaving exists. -/
theorem c8_sequential (tokens : List String) (exitOf : List String → Nat)
    (a : Args) (h1 : parseArgs tokens = ParseResult.ok a)
    (h2 : a.info = false) :
    (mainRun tokens exitOf).1 =
      [Event.started (cmake_command a.web a.build_type),
       Event.exited (cmake_command a.web a.build_type)
         (exitOf (cmake_command a.web a.build_type))] ++
      (if exitOf (cmake_command a.web a.build_type) = 0 then
        [Event.started (build_command a.web a.build_type a.jobs),
         Event.exited (build_command a.web a.build_type a.jobs)
           (exitOf (build_command a.web a.build_type a.jobs))]
      else []) := by
  by_cases h0 : exitOf (cmake_command a.web a.build_type) = 0
  · simp [mainRun, h1, h2, h0]
  · simp [mainRun, h1, h2, h0]

/-- C8 witness: the sequential trace at the empty command line with both
commands exiting 0. -/
theorem c8_sequential_witness :
    (mainRun [] (fun _ => 0)).1 =
      [Event.started (cmake_command false BuildType.Release),
       Event.exited (cmake_command false BuildType.Release) 0,
       Event.started (build_command false BuildType.Release 8),
       Event.exited (build_command false BuildType.Release 8) 0] := by
  have h := c8_sequential [] (fun _ => 0)
    ⟨BuildType.Release, false, 8, false⟩ (by decide) rfl
  simpa using h

/-- C9 counterexample: in `--help --jobs x` the value given to `--jobs` is
not parseable as an integer, yet the help action fires first and the
process exits 0, not with usage-error code 2. -/
theorem c9_badjobs_counterexample :
    pyInt "x" = none ∧
    mainRun ["--help", "--jobs", "x"] (fun _ => 1) = ([], 0) := by
  decide

/-- C9 (amended): every command line giving `--jobs` an ASCII value that
`int` cannot convert (on ASCII strings `pyInt` coincides with Python's
`int`, which additionally accepts non-ASCII decimal digits and Unicode
whitespace), with no earlier token through which the help action can fire,
exits with the parsing layer's usage-error code 2 and performs zero
subprocess invocations. -/
theorem c9_badjobs_usage_error (pre post : List String) (v : String)
    (exitOf : List String → Nat) (hv : pyInt v = none)
    (hascii : ∀ c ∈ v.data, c.toNat < 128)
    (hh : ∀ t ∈ pre, isHelpTok t = false) :
    mainRun (pre ++ "--jobs" :: v :: post) exitOf = ([], 2) := by
  have hp := parseLoop_jobs_bad pre initState v post hv hh
  simp [mainRun, parseArgs, hp]

/-- C9 witness: the amended statement at the command line
`--web --jobs x`. -/
theorem c9_badjobs_witness :
    mainRun (["--web"] ++ "--jobs" :: "x" :: []) (fun _ => 0) = ([], 2) :=
  c9_badjobs_usage_error ["--web"] [] "x" (fun _ => 0) (by decide) (by decide)
    (by decide)

/-- C10: for every integer N, zero and negative values included, the command
line `--jobs N` is accepted without a usage error and with no validation,
the resolved jobs value is N, and the composed build command's final token
is the string `-jN`. -/
theorem c10_jobs_verbatim (N : Int) :
    parseArgs ["--jobs", pyStr N] =
      ParseResult.ok ⟨BuildType.Release, false, N, false⟩ ∧
    (build_command false BuildType.Release N).getLast? =
      some ("-j" ++ pyStr N) := by
  constructor
  · have h1 := pyInt_pyStr N
    have h2 := optionLike_pyStr N
    simp [parseArgs, parseLoop, initState, classify_jjobs, h1, h2, finish]
  · rfl

end BuildPy
